import Mathlib

/-!
Verification of the IAM policy-patching scripts in `src/lambdas/auth-handler/`
(`update-policy.py`, `update-telnyx-policy.py`, `update-short-urls-policy.py`).

Each script reads an IAM policy document, scans its `Statement` list for the
first statement whose `Action` set matches a capability, and ensures a target
resource ARN is present in that statement's `Resource` list.  The embedding
below models the patching core of each script; the AWS CLI plumbing
(fetch/store, output framing, environment mutation) is outside the patching
logic and is not modelled.
-/

/-- A JSON value that is either a bare string or a list of strings, as the
`Action` and `Resource` fields of an IAM statement may be serialized either
way.  Mirrors the `isinstance(x, str)` checks in all three scripts. -/
inductive StrOrList where
  | str (s : String)
  | list (l : List String)
deriving DecidableEq

/-- Normalization applied by every script: `if isinstance(actions, str):
actions = [actions]` — a bare string becomes a one-element list. -/
def StrOrList.norm : StrOrList → List String
  | .str s => [s]
  | .list l => l

/-- One IAM policy statement.  `effect`, `action` and `resource` model the
`Effect`, `Action` and `Resource` JSON keys (absent when `none`); `other`
models any further keys of the statement object, which the scripts never
read or write. -/
structure Statement where
  effect : Option String
  action : Option StrOrList
  resource : Option StrOrList
  other : List (String × String)
deriving DecidableEq

/-- `statement.get('Action', [])` followed by the string-to-list coercion. -/
def Statement.normAction (s : Statement) : List String :=
  (s.action.getD (.list [])).norm

/-- `statement.get('Resource', [])` followed by the string-to-list coercion. -/
def Statement.normResource (s : Statement) : List String :=
  (s.resource.getD (.list [])).norm

/-- An IAM policy document.  `statement` is the `Statement` key (absent when
`none`); `other` models any further keys, untouched by the scripts. -/
structure PolicyDocument where
  statement : Option (List Statement)
  other : List (String × String)
deriving DecidableEq

/-- `policy_doc.get('Statement', [])`: a missing `Statement` key is read as
the empty list. -/
def PolicyDocument.stmts (d : PolicyDocument) : List Statement :=
  d.statement.getD []

/-- The match test of `update-policy.py` (line 20) and
`update-telnyx-policy.py` (line 59):
`if 'secretsmanager:GetSecretValue' in actions` — exact, case-sensitive
list membership. -/
def secretsmanagerMatch (actions : List String) : Bool :=
  decide ("secretsmanager:GetSecretValue" ∈ actions)

/-- Lowercasing of a string, character by character: Python `str.lower()`
restricted to the ASCII strings the scripts compare. -/
def lowerStr (s : String) : String :=
  String.mk (s.data.map Char.toLower)

/-- `a` begins the list `b`. -/
def beginsWith : List Char → List Char → Bool
  | [], _ => true
  | _ :: _, [] => false
  | a :: as, b :: bs => a == b && beginsWith as bs

/-- Python substring containment `needle in hay` over the characters. -/
def containsSub (needle hay : List Char) : Bool :=
  match hay with
  | [] => needle.isEmpty
  | _ :: rest => beginsWith needle hay || containsSub needle rest

/-- The match test of `update-short-urls-policy.py` (line 60):
`any('dynamodb' in str(action).lower() for action in actions)` — a
case-insensitive substring test over the actions. -/
def dynamodbMatch (actions : List String) : Bool :=
  actions.any fun a => containsSub "dynamodb".data (lowerStr a).data

/-- The body each script runs on the first matching statement
(e.g. `update-policy.py` lines 21-33): normalize `Resource`; if the target
ARN is already a member, leave the statement untouched and report no change;
otherwise append the ARN and write the normalized list back. -/
def patchStmt (arn : String) (s : Statement) : Statement × Bool :=
  if arn ∈ s.normResource then (s, false)
  else ({ s with resource := some (.list (s.normResource ++ [arn])) }, true)

/-- The scan loop shared by all three scripts: walk the statement list in
order, patch the first statement whose normalized `Action` satisfies the
match test and stop (`break`); `none` when no statement matches
(`found` stays `False`). -/
def patchStmts (m : List String → Bool) (arn : String) :
    List Statement → Option (List Statement × Bool)
  | [] => none
  | s :: rest =>
    if m s.normAction then
      some ((patchStmt arn s).1 :: rest, (patchStmt arn s).2)
    else
      match patchStmts m arn rest with
      | none => none
      | some (l, c) => some (s :: l, c)

/-- The scan loop lifted to a document: the scripts iterate
`policy_doc.get('Statement', [])` and mutate the matched statement in place,
so a successful patch rewrites only the `Statement` key. -/
def runScript (m : List String → Bool) (arn : String) (d : PolicyDocument) :
    Option (PolicyDocument × Bool) :=
  match patchStmts m arn d.stmts with
  | none => none
  | some (l, c) => some ({ d with statement := some l }, c)

/-- ARN ensured by `update-policy.py` (line 25). -/
def backdoor_arn : String :=
  "arn:aws:secretsmanager:*:*:secret:mobile-app/backdoor-secret-*"

/-- ARN ensured by `update-telnyx-policy.py` (line 65). -/
def telnyx_arn : String :=
  "arn:aws:secretsmanager:*:*:secret:mobile-app/telnyx-api-key-*"

/-- ARN ensured by `update-short-urls-policy.py` (line 66). -/
def short_urls_arn : String :=
  "arn:aws:dynamodb:*:*:table/mobile-short-urls"

/-- How a script can fail after parsing the document. -/
inductive PatchError where
  | noMatchingStatement
  | keyError
deriving DecidableEq

/-- Core of `update-policy.py`: patch the first `secretsmanager:GetSecretValue`
statement with the backdoor ARN.  The script has no `found` flag: when no
statement matches it falls through the loop and prints the document
unchanged on stdout with exit status 0 — no error is raised. -/
def update_policy (d : PolicyDocument) : PolicyDocument × Bool :=
  match runScript secretsmanagerMatch backdoor_arn d with
  | none => (d, false)
  | some r => r

/-- Core of `update-telnyx-policy.py` (lines 53-77): patch the first
`secretsmanager:GetSecretValue` statement with the telnyx ARN; when no
statement matches (`if not found`), print a warning and `sys.exit(1)`. -/
def update_telnyx_policy (d : PolicyDocument) :
    Except PatchError (PolicyDocument × Bool) :=
  match runScript secretsmanagerMatch telnyx_arn d with
  | none => .error .noMatchingStatement
  | some r => .ok r

/-- The fallback statement built by `update-short-urls-policy.py`
(lines 78-90). -/
def fallback_statement : Statement :=
  { effect := some "Allow"
  , action := some (.list
      [ "dynamodb:GetItem", "dynamodb:PutItem", "dynamodb:UpdateItem"
      , "dynamodb:DeleteItem", "dynamodb:Query" ])
  , resource := some (.list [short_urls_arn])
  , other := [] }

/-- Core of `update-short-urls-policy.py` (lines 53-92): patch the first
DynamoDB statement with the short-urls table ARN; when no statement matches,
append `fallback_statement` via `policy_doc['Statement'].append(...)` — a
plain key access that raises `KeyError` when the `Statement` key is absent. -/
def update_short_urls_policy (d : PolicyDocument) :
    Except PatchError (PolicyDocument × Bool) :=
  match runScript dynamodbMatch short_urls_arn d with
  | none =>
    match d.statement with
    | none => .error .keyError
    | some l =>
      .ok ({ d with statement := some (l ++ [fallback_statement]) }, true)
  | some r => .ok r

example : secretsmanagerMatch ["secretsmanager:GetSecretValue"] = true := by decide
example : secretsmanagerMatch ["s3:GetObject"] = false := by decide
example : dynamodbMatch ["DYNAMODB:Query"] = true := by decide
example : dynamodbMatch ["xdynamodbx"] = true := by decide
example : dynamodbMatch ["dynamo:Query"] = false := by decide

/-! ## Helper lemmas about the patching core -/

/-- `patchStmt` never touches `effect`, `action` or the pass-through fields. -/
theorem patchStmt_frame (arn : String) (s : Statement) :
    (patchStmt arn s).1.effect = s.effect ∧
    (patchStmt arn s).1.action = s.action ∧
    (patchStmt arn s).1.other = s.other := by
  unfold patchStmt
  split <;> simp

/-- The normalized action set is unchanged by `patchStmt`. -/
theorem patchStmt_normAction (arn : String) (s : Statement) :
    (patchStmt arn s).1.normAction = s.normAction := by
  unfold Statement.normAction
  rw [(patchStmt_frame arn s).2.1]

/-- After `patchStmt`, the target ARN is a member of the normalized
resource list. -/
theorem patchStmt_mem (arn : String) (s : Statement) :
    arn ∈ (patchStmt arn s).1.normResource := by
  unfold patchStmt
  split
  case isTrue h => exact h
  case isFalse h =>
    simp [Statement.normResource, StrOrList.norm]

/-- When the ARN is already present, `patchStmt` reports no change and
leaves the statement untouched. -/
theorem patchStmt_of_mem (arn : String) (s : Statement)
    (h : arn ∈ s.normResource) : patchStmt arn s = (s, false) := by
  unfold patchStmt
  simp [h]

/-- `patchStmt` is idempotent: running it on its own output changes
nothing and reports `false`. -/
theorem patchStmt_idem (arn : String) (s : Statement) :
    patchStmt arn (patchStmt arn s).1 = ((patchStmt arn s).1, false) :=
  patchStmt_of_mem arn (patchStmt arn s).1 (patchStmt_mem arn s)

/-- The scan loop returns `none` exactly when no statement matches. -/
theorem patchStmts_none_iff (m : List String → Bool) (arn : String)
    (l : List Statement) :
    patchStmts m arn l = none ↔ ∀ t ∈ l, m t.normAction = false := by
  induction l with
  | nil => simp [patchStmts]
  | cons s rest ih =>
    unfold patchStmts
    cases hm : m s.normAction with
    | true =>
      simp [hm]
    | false =>
      simp only [Bool.false_eq_true, if_false]
      cases hrest : patchStmts m arn rest with
      | none =>
        simp only [true_iff]
        intro t ht
        rcases List.mem_cons.mp ht with h | h
        · exact h ▸ hm
        · exact (ih.mp hrest) t h
      | some p =>
        obtain ⟨lr, cr⟩ := p
        constructor
        · intro h
          simp at h
        · intro hall
          have hnone : patchStmts m arn rest = none :=
            ih.mpr fun t ht => hall t (List.mem_cons_of_mem s ht)
          rw [hnone] at hrest
          exact Option.noConfusion hrest

/-- Running the scan loop on a list whose first matching statement is `s`
patches exactly `s` and keeps everything else in place. -/
theorem patchStmts_first (m : List String → Bool) (arn : String)
    (pre : List Statement) (s : Statement) (post : List Statement)
    (hpre : ∀ t ∈ pre, m t.normAction = false)
    (hs : m s.normAction = true) :
    patchStmts m arn (pre ++ s :: post) =
      some (pre ++ (patchStmt arn s).1 :: post, (patchStmt arn s).2) := by
  induction pre with
  | nil => simp [patchStmts, hs]
  | cons t ts ih =>
    have ht : m t.normAction = false := hpre t (List.mem_cons_self t ts)
    have hts : ∀ u ∈ ts, m u.normAction = false :=
      fun u hu => hpre u (List.mem_cons_of_mem t hu)
    simp [patchStmts, ht, ih hts]

/-- Any successful run of the scan loop decomposes the list around its
first matching statement. -/
theorem patchStmts_some (m : List String → Bool) (arn : String)
    (l l1 : List Statement) (c : Bool)
    (h : patchStmts m arn l = some (l1, c)) :
    ∃ pre s post, l = pre ++ s :: post ∧
      (∀ t ∈ pre, m t.normAction = false) ∧ m s.normAction = true ∧
      l1 = pre ++ (patchStmt arn s).1 :: post ∧ c = (patchStmt arn s).2 := by
  induction l generalizing l1 c with
  | nil => simp [patchStmts] at h
  | cons t rest ih =>
    unfold patchStmts at h
    cases hm : m t.normAction with
    | true =>
      rw [hm] at h
      simp only [if_true] at h
      obtain ⟨h1, h2⟩ := Prod.mk.injEq .. ▸ Option.some.injEq .. ▸ h
      exact ⟨[], t, rest, rfl, by simp, hm, by simp [← h1], by simp [← h2]⟩
    | false =>
      rw [hm] at h
      simp only [Bool.false_eq_true, if_false] at h
      cases hrest : patchStmts m arn rest with
      | none => rw [hrest] at h; exact Option.noConfusion h
      | some p =>
        rw [hrest] at h
        obtain ⟨lr, cr⟩ := p
        simp only [Option.some.injEq, Prod.mk.injEq] at h
        obtain ⟨h1, h2⟩ := h
        obtain ⟨pre, s, post, hl, hpre, hs, hl1, hc⟩ := ih lr cr hrest
        refine ⟨t :: pre, s, post, by simp [hl], ?_, hs, by simp [← h1, hl1], h2 ▸ hc⟩
        intro u hu
        rcases List.mem_cons.mp hu with h | h
        · exact h ▸ hm
        · exact hpre u h

/-- Reading the statements of a document whose `Statement` key holds `l`. -/
theorem stmts_eq_of_statement {d : PolicyDocument} {l : List Statement}
    (h : d.statement = some l) : d.stmts = l := by
  unfold PolicyDocument.stmts
  rw [h]
  rfl

/-- Rewriting the `Statement` key with the value it already holds is the
identity on documents. -/
theorem setStmts_self (d : PolicyDocument) (l : List Statement)
    (h : d.statement = some l) :
    ({ d with statement := some l } : PolicyDocument) = d := by
  cases d with
  | mk st ot =>
    simp only [PolicyDocument.mk.injEq, and_true]
    exact h.symm

/-- The document-level scan fails exactly when no statement matches. -/
theorem runScript_none_iff (m : List String → Bool) (arn : String)
    (d : PolicyDocument) :
    runScript m arn d = none ↔ ∀ t ∈ d.stmts, m t.normAction = false := by
  unfold runScript
  cases h : patchStmts m arn d.stmts with
  | none => simpa using (patchStmts_none_iff m arn d.stmts).mp h
  | some p =>
    obtain ⟨l, c⟩ := p
    constructor
    · intro hx
      simp at hx
    · intro hall
      rw [(patchStmts_none_iff m arn d.stmts).mpr hall] at h
      exact Option.noConfusion h

/-- A successful document-level scan comes from a successful list-level
scan and only rewrites the `Statement` key. -/
theorem runScript_some (m : List String → Bool) (arn : String)
    (d d1 : PolicyDocument) (c : Bool)
    (h : runScript m arn d = some (d1, c)) :
    ∃ l1, patchStmts m arn d.stmts = some (l1, c) ∧
      d1 = { d with statement := some l1 } := by
  unfold runScript at h
  cases hp : patchStmts m arn d.stmts with
  | none => rw [hp] at h; exact Option.noConfusion h
  | some p =>
    obtain ⟨l, c0⟩ := p
    rw [hp] at h
    simp only [Option.some.injEq, Prod.mk.injEq] at h
    obtain ⟨h1, h2⟩ := h
    refine ⟨l, ?_, h1.symm⟩
    cases h2
    rfl

/-- Document-level counterpart of `patchStmts_first`. -/
theorem runScript_first (m : List String → Bool) (arn : String)
    (d : PolicyDocument) (pre : List Statement) (s : Statement)
    (post : List Statement)
    (hd : d.statement = some (pre ++ s :: post))
    (hpre : ∀ t ∈ pre, m t.normAction = false)
    (hs : m s.normAction = true) :
    runScript m arn d =
      some ({ d with statement := some (pre ++ (patchStmt arn s).1 :: post) },
            (patchStmt arn s).2) := by
  unfold runScript
  rw [stmts_eq_of_statement hd, patchStmts_first m arn pre s post hpre hs]

/-- The list-level scan is idempotent. -/
theorem patchStmts_idem (m : List String → Bool) (arn : String)
    (l l1 : List Statement) (c : Bool)
    (h : patchStmts m arn l = some (l1, c)) :
    patchStmts m arn l1 = some (l1, false) := by
  obtain ⟨pre, s, post, hl, hpre, hs, hl1, hc⟩ := patchStmts_some m arn l l1 c h
  have hs1 : m (patchStmt arn s).1.normAction = true := by
    rw [patchStmt_normAction]
    exact hs
  have := patchStmts_first m arn pre (patchStmt arn s).1 post hpre hs1
  rw [patchStmt_idem] at this
  rw [hl1, this]

/-- The document-level scan is idempotent. -/
theorem runScript_idem (m : List String → Bool) (arn : String)
    (d d1 : PolicyDocument) (c : Bool)
    (h : runScript m arn d = some (d1, c)) :
    runScript m arn d1 = some (d1, false) := by
  obtain ⟨l1, hp, hd1⟩ := runScript_some m arn d d1 c h
  have hst : d1.statement = some l1 := by rw [hd1]
  unfold runScript
  rw [stmts_eq_of_statement hst, patchStmts_idem m arn d.stmts l1 c hp]
  show some ({ d1 with statement := some l1 }, false) = some (d1, false)
  rw [setStmts_self d1 l1 hst]

/-! ## Concrete documents used to exercise the theorems -/

/-- A statement none of the three match tests accepts. -/
def s3Stmt : Statement :=
  { effect := some "Allow"
  , action := some (.list ["s3:GetObject"])
  , resource := some (.list ["arn:aws:s3:::mobile-assets/*"])
  , other := [("Sid", "AssetsRead")] }

/-- A `secretsmanager:GetSecretValue` statement. -/
def smStmt : Statement :=
  { effect := some "Allow"
  , action := some (.list ["secretsmanager:GetSecretValue"])
  , resource := some (.list ["arn:aws:secretsmanager:*:*:secret:mobile-app/config-*"])
  , other := [] }

/-- A DynamoDB statement with bare-string `Action` and `Resource`. -/
def dyStmt : Statement :=
  { effect := some "Allow"
  , action := some (.str "dynamodb:GetItem")
  , resource := some (.str "arn:aws:dynamodb:*:*:table/mobile-users")
  , other := [] }

/-- A document containing all three kinds of statement. -/
def sampleDoc : PolicyDocument :=
  { statement := some [s3Stmt, smStmt, dyStmt]
  , other := [("Version", "2012-10-17")] }

/-- `smStmt` after the backdoor ARN has been appended. -/
def smStmt_bd : Statement :=
  { smStmt with resource := some (.list
      [ "arn:aws:secretsmanager:*:*:secret:mobile-app/config-*"
      , backdoor_arn ]) }

/-- `sampleDoc` after `update-policy.py` has run once. -/
def sampleDoc_bd : PolicyDocument :=
  { sampleDoc with statement := some [s3Stmt, smStmt_bd, dyStmt] }

/-- `smStmt` after the telnyx ARN has been appended. -/
def smStmt_tx : Statement :=
  { smStmt with resource := some (.list
      [ "arn:aws:secretsmanager:*:*:secret:mobile-app/config-*"
      , telnyx_arn ]) }

/-- `sampleDoc` after `update-telnyx-policy.py` has run once. -/
def sampleDoc_tx : PolicyDocument :=
  { sampleDoc with statement := some [s3Stmt, smStmt_tx, dyStmt] }

/-- `dyStmt` after the short-urls table ARN has been appended; the
bare-string resource has been normalized into a list. -/
def dyStmt_su : Statement :=
  { dyStmt with resource := some (.list
      [ "arn:aws:dynamodb:*:*:table/mobile-users"
      , short_urls_arn ]) }

/-- `sampleDoc` after `update-short-urls-policy.py` has run once. -/
def sampleDoc_su : PolicyDocument :=
  { sampleDoc with statement := some [s3Stmt, smStmt, dyStmt_su] }

example : update_policy sampleDoc = (sampleDoc_bd, true) := by decide
example : update_telnyx_policy sampleDoc = .ok (sampleDoc_tx, true) := rfl
example : update_short_urls_policy sampleDoc = .ok (sampleDoc_su, true) := rfl

/-! ## Facts about the fallback statement -/

/-- The fallback statement of `update-short-urls-policy.py` satisfies the
DynamoDB match test. -/
theorem fallback_matches : dynamodbMatch fallback_statement.normAction = true := by
  decide

/-- The fallback statement already carries the short-urls table ARN. -/
theorem fallback_has_arn :
    short_urls_arn ∈ fallback_statement.normResource := by
  decide

/-- Appending the fallback statement to an all-non-matching list and
re-running the scan finds the fallback first and changes nothing. -/
theorem patchStmts_after_fallback (l : List Statement)
    (hl : ∀ t ∈ l, dynamodbMatch t.normAction = false) :
    patchStmts dynamodbMatch short_urls_arn (l ++ [fallback_statement]) =
      some (l ++ [fallback_statement], false) := by
  have h := patchStmts_first dynamodbMatch short_urls_arn l
    fallback_statement [] hl fallback_matches
  rw [patchStmt_of_mem short_urls_arn fallback_statement fallback_has_arn] at h
  exact h

/-! ## Claims -/

/-- C1: applying the same patch rule twice is idempotent — for each of the
three scripts, if a run on document `d` succeeds and produces document `d1`,
then a second run on `d1` succeeds, returns `d1` unchanged and reports
`changed = false`. -/
theorem C1_patch_idempotent (d d1 : PolicyDocument) (b : Bool) :
    (update_policy d = (d1, b) → update_policy d1 = (d1, false)) ∧
    (update_telnyx_policy d = .ok (d1, b) →
      update_telnyx_policy d1 = .ok (d1, false)) ∧
    (update_short_urls_policy d = .ok (d1, b) →
      update_short_urls_policy d1 = .ok (d1, false)) := by
  refine ⟨?_, ?_, ?_⟩
  · intro h
    unfold update_policy at h ⊢
    cases hr : runScript secretsmanagerMatch backdoor_arn d with
    | none =>
      rw [hr] at h
      simp only [Prod.mk.injEq] at h
      obtain ⟨h1, h2⟩ := h
      rw [← h1, hr]
    | some r =>
      obtain ⟨d2, c⟩ := r
      rw [hr] at h
      simp only at h
      rw [h] at hr
      rw [runScript_idem secretsmanagerMatch backdoor_arn d d1 b hr]
  · intro h
    unfold update_telnyx_policy at h ⊢
    cases hr : runScript secretsmanagerMatch telnyx_arn d with
    | none => rw [hr] at h; exact Except.noConfusion h
    | some r =>
      obtain ⟨d2, c⟩ := r
      rw [hr] at h
      simp only [Except.ok.injEq] at h
      rw [h] at hr
      rw [runScript_idem secretsmanagerMatch telnyx_arn d d1 b hr]
  · intro h
    unfold update_short_urls_policy at h ⊢
    cases hr : runScript dynamodbMatch short_urls_arn d with
    | some r =>
      obtain ⟨d2, c⟩ := r
      rw [hr] at h
      simp only [Except.ok.injEq] at h
      rw [h] at hr
      rw [runScript_idem dynamodbMatch short_urls_arn d d1 b hr]
    | none =>
      rw [hr] at h
      cases hds : d.statement with
      | none => rw [hds] at h; exact Except.noConfusion h
      | some l =>
        rw [hds] at h
        simp only [Except.ok.injEq, Prod.mk.injEq] at h
        obtain ⟨h1, h2⟩ := h
        have hall : ∀ t ∈ d.stmts, dynamodbMatch t.normAction = false :=
          (runScript_none_iff dynamodbMatch short_urls_arn d).mp hr
        have hl : ∀ t ∈ l, dynamodbMatch t.normAction = false := by
          rw [← stmts_eq_of_statement hds]
          exact hall
        have hd1st : d1.statement = some (l ++ [fallback_statement]) := by
          rw [← h1]
        have hrun : runScript dynamodbMatch short_urls_arn d1 =
            some (d1, false) := by
          unfold runScript
          rw [stmts_eq_of_statement hd1st, patchStmts_after_fallback l hl]
          show some ({ d1 with statement := some (l ++ [fallback_statement]) },
            false) = some (d1, false)
          rw [setStmts_self d1 (l ++ [fallback_statement]) hd1st]
        rw [hrun]

/-- C1 witness: each script run once on `sampleDoc` produces a changed
document, and a second run returns it unchanged with `changed = false`. -/
theorem C1_patch_idempotent_witness :
    update_policy sampleDoc = (sampleDoc_bd, true) ∧
    update_policy sampleDoc_bd = (sampleDoc_bd, false) ∧
    update_telnyx_policy sampleDoc = .ok (sampleDoc_tx, true) ∧
    update_telnyx_policy sampleDoc_tx = .ok (sampleDoc_tx, false) ∧
    update_short_urls_policy sampleDoc = .ok (sampleDoc_su, true) ∧
    update_short_urls_policy sampleDoc_su = .ok (sampleDoc_su, false) :=
  ⟨rfl, (C1_patch_idempotent sampleDoc sampleDoc_bd true).1 rfl,
   rfl, (C1_patch_idempotent sampleDoc sampleDoc_tx true).2.1 rfl,
   rfl, (C1_patch_idempotent sampleDoc sampleDoc_su true).2.2 rfl⟩

/-- A document whose only statement matches none of the three tests. -/
def noMatchDoc : PolicyDocument :=
  { statement := some [s3Stmt], other := [("Version", "2012-10-17")] }

/-- A document with no `Statement` key at all. -/
def emptyDoc : PolicyDocument :=
  { statement := none, other := [("Version", "2012-10-17")] }

/-- C2 counterexample: `update-policy.py` has no fallback, yet on a document
whose only statement does not match it does not fail — it returns the
document as a successful, unmodified result with `changed = false`, silently
swallowing the no-match condition instead of surfacing
`NoMatchingStatement`. -/
theorem C2_counterexample :
    secretsmanagerMatch s3Stmt.normAction = false ∧
    noMatchDoc.stmts = [s3Stmt] ∧
    update_policy noMatchDoc = (noMatchDoc, false) := by
  decide

/-- C2 amended: on a document with no matching statement and no fallback,
only `update-telnyx-policy.py` fails with the no-matching-statement error
and leaves the document unreturned; `update-policy.py` silently returns the
document unchanged as a success with `changed = false`. -/
theorem C2_no_match_surfacing (d : PolicyDocument)
    (h : ∀ t ∈ d.stmts, secretsmanagerMatch t.normAction = false) :
    update_telnyx_policy d = .error .noMatchingStatement ∧
    update_policy d = (d, false) := by
  have hr : runScript secretsmanagerMatch telnyx_arn d = none :=
    (runScript_none_iff secretsmanagerMatch telnyx_arn d).mpr h
  have hr2 : runScript secretsmanagerMatch backdoor_arn d = none :=
    (runScript_none_iff secretsmanagerMatch backdoor_arn d).mpr h
  constructor
  · unfold update_telnyx_policy
    rw [hr]
  · unfold update_policy
    rw [hr2]

/-- C2 witness: the amended behaviour at the concrete document
`noMatchDoc`. -/
theorem C2_no_match_surfacing_witness :
    update_telnyx_policy noMatchDoc = .error .noMatchingStatement ∧
    update_policy noMatchDoc = (noMatchDoc, false) :=
  C2_no_match_surfacing noMatchDoc (by decide)

/-- A statement consisting only of a `Resource` list, used to isolate the
membership guard of the patch step. -/
def bareResStmt (resources : List String) : Statement :=
  { effect := none
  , action := none
  , resource := some (.list resources)
  , other := [] }

/-- A concrete ARN the wildcard pattern of `backdoor_arn` would cover if
wildcards were expanded — the membership guard must nonetheless treat the
pattern as absent, because `*` is a literal character in the comparison. -/
def backdoor_expanded_arn : String :=
  "arn:aws:secretsmanager:us-west-2:123456789012:secret:mobile-app/backdoor-secret-AbC123"

/-- C3 counterexample: the DynamoDB match test of
`update-short-urls-policy.py` accepts `DYNAMODB:Query` (different case) and
`xdynamodbx` (substring occurrence), although neither action list contains
the capability string `dynamodb` as an exact, case-sensitive element — so
matching is not exact-match-only and not case-sensitive. -/
theorem C3_counterexample :
    dynamodbMatch ["DYNAMODB:Query"] = true ∧
    "dynamodb" ∉ (["DYNAMODB:Query"] : List String) ∧
    dynamodbMatch ["xdynamodbx"] = true ∧
    "dynamodb" ∉ (["xdynamodbx"] : List String) := by
  decide

/-- C3 amended: `Resource` ARN membership and the secretsmanager action
test are exact, case-sensitive string comparisons in which `*` is a literal
character; the DynamoDB capability test alone is a case-insensitive
substring match over the action names. -/
theorem C3_exact_and_substring (actions resources : List String)
    (arn : String) :
    (secretsmanagerMatch actions = true ↔
      "secretsmanager:GetSecretValue" ∈ actions) ∧
    secretsmanagerMatch ["SECRETSMANAGER:GETSECRETVALUE"] = false ∧
    ((patchStmt arn (bareResStmt resources)).2 = false ↔
      arn ∈ resources) ∧
    (patchStmt backdoor_arn (bareResStmt [backdoor_expanded_arn])).2 = true ∧
    dynamodbMatch ["DYNAMODB:Query"] = true := by
  refine ⟨?_, by decide, ?_, by decide, by decide⟩
  · unfold secretsmanagerMatch
    exact decide_eq_true_iff
  · unfold patchStmt
    by_cases h : arn ∈ resources
    · rw [if_pos]
      · simp [h]
      · exact h
    · rw [if_neg]
      · simp [h]
      · exact h

/-- C3 witness: the amended statement applied to concrete action and
resource lists. -/
theorem C3_exact_and_substring_witness :
    (secretsmanagerMatch ["secretsmanager:GetSecretValue"] = true ↔
      "secretsmanager:GetSecretValue" ∈
        (["secretsmanager:GetSecretValue"] : List String)) ∧
    secretsmanagerMatch ["SECRETSMANAGER:GETSECRETVALUE"] = false ∧
    ((patchStmt telnyx_arn (bareResStmt [telnyx_arn])).2 = false ↔
      telnyx_arn ∈ ([telnyx_arn] : List String)) ∧
    (patchStmt backdoor_arn (bareResStmt [backdoor_expanded_arn])).2 = true ∧
    dynamodbMatch ["DYNAMODB:Query"] = true :=
  C3_exact_and_substring ["secretsmanager:GetSecretValue"] [telnyx_arn]
    telnyx_arn

/-- C6 counterexample: a document whose `Statement` field is missing is not
rejected with a `MalformedDocument` error by any script —
`update-policy.py` succeeds and returns it unchanged,
`update-telnyx-policy.py` exits with its no-matching-statement failure, and
`update-short-urls-policy.py` crashes with a `KeyError` while appending its
fallback. -/
theorem C6_counterexample :
    update_policy emptyDoc = (emptyDoc, false) ∧
    update_telnyx_policy emptyDoc = .error .noMatchingStatement ∧
    update_short_urls_policy emptyDoc = .error .keyError :=
  ⟨rfl, rfl, rfl⟩

/-- C6 amended: a missing `Statement` field is read as an empty statement
list rather than reported as `MalformedDocument`: `update-policy.py`
succeeds with the document unchanged, `update-telnyx-policy.py` fails with
its no-matching-statement exit, and `update-short-urls-policy.py` fails
with a `KeyError` raised by `policy_doc['Statement']`. -/
theorem C6_missing_statement (d : PolicyDocument) (h : d.statement = none) :
    update_policy d = (d, false) ∧
    update_telnyx_policy d = .error .noMatchingStatement ∧
    update_short_urls_policy d = .error .keyError := by
  have hstmts : d.stmts = [] := by
    unfold PolicyDocument.stmts
    rw [h]
    rfl
  have hnone : ∀ (m : List String → Bool) (arn : String),
      runScript m arn d = none := by
    intro m arn
    apply (runScript_none_iff m arn d).mpr
    rw [hstmts]
    intro t ht
    exact absurd ht (List.not_mem_nil t)
  refine ⟨?_, ?_, ?_⟩
  · unfold update_policy
    rw [hnone]
  · unfold update_telnyx_policy
    rw [hnone]
  · unfold update_short_urls_policy
    rw [hnone, h]

/-- C6 witness: the amended behaviour at the concrete document
`emptyDoc`. -/
theorem C6_missing_statement_witness :
    update_policy emptyDoc = (emptyDoc, false) ∧
    update_telnyx_policy emptyDoc = .error .noMatchingStatement ∧
    update_short_urls_policy emptyDoc = .error .keyError :=
  C6_missing_statement emptyDoc rfl

/-- C4: on a document whose first matching statement is `s` (every earlier
statement fails the match test), the patcher acts on `s` alone — if the
ensured ARN is already in `s`'s resource set the document comes back
unchanged with `changed = false`, and otherwise the ARN is appended at the
end of `s`'s resource sequence with `changed = true`. -/
theorem C4_first_match (m : List String → Bool) (arn : String)
    (d : PolicyDocument) (pre : List Statement) (s : Statement)
    (post : List Statement)
    (hd : d.statement = some (pre ++ s :: post))
    (hpre : ∀ t ∈ pre, m t.normAction = false)
    (hs : m s.normAction = true) :
    (arn ∈ s.normResource → runScript m arn d = some (d, false)) ∧
    (arn ∉ s.normResource → runScript m arn d =
      some ({ d with statement := some (pre ++
        ({ s with resource := some (.list (s.normResource ++ [arn])) })
          :: post) }, true)) := by
  have h := runScript_first m arn d pre s post hd hpre hs
  constructor
  · intro hmem
    rw [patchStmt_of_mem arn s hmem] at h
    rw [setStmts_self d (pre ++ s :: post) hd] at h
    exact h
  · intro hmem
    have hp : patchStmt arn s =
        ({ s with resource := some (.list (s.normResource ++ [arn])) },
         true) := by
      unfold patchStmt
      rw [if_neg hmem]
    rw [hp] at h
    exact h

/-- C4 witness: on `sampleDoc` the first matching statement for the
secretsmanager rule is `smStmt`; the backdoor ARN is absent there, so it is
appended and the run reports a change. -/
theorem C4_first_match_witness :
    runScript secretsmanagerMatch backdoor_arn sampleDoc =
      some (sampleDoc_bd, true) :=
  (C4_first_match secretsmanagerMatch backdoor_arn sampleDoc [s3Stmt] smStmt
    [dyStmt] rfl (by decide) (by decide)).2 (by decide)

/-- C7: a bare-string `Action` and the one-element-list `Action` holding the
same string give the same result under every match test, and a bare-string
`Resource` behaves as its one-element list for membership testing — both
through raw membership and through the changed-flag of the patch step. -/
theorem C7_normalization (m : List String → Bool) (X : String)
    (eff : Option String) (act res : Option StrOrList)
    (oth : List (String × String)) (arn r : String) :
    m (Statement.normAction ⟨eff, some (.str X), res, oth⟩) =
      m (Statement.normAction ⟨eff, some (.list [X]), res, oth⟩) ∧
    ((arn ∈ (StrOrList.str r).norm) ↔ arn ∈ (StrOrList.list [r]).norm) ∧
    (patchStmt arn ⟨eff, act, some (.str r), oth⟩).2 =
      (patchStmt arn ⟨eff, act, some (.list [r]), oth⟩).2 := by
  refine ⟨rfl, Iff.rfl, ?_⟩
  by_cases h : arn = r
  · simp [patchStmt, Statement.normResource, StrOrList.norm, h]
  · simp [patchStmt, Statement.normResource, StrOrList.norm, h]

/-- C7 witness: the normalization round-trip at the concrete action
`secretsmanager:GetSecretValue` and the backdoor ARN. -/
theorem C7_normalization_witness :
    secretsmanagerMatch (Statement.normAction
        ⟨some "Allow", some (.str "secretsmanager:GetSecretValue"), none, []⟩) =
      secretsmanagerMatch (Statement.normAction
        ⟨some "Allow", some (.list ["secretsmanager:GetSecretValue"]), none, []⟩) ∧
    ((backdoor_arn ∈ (StrOrList.str backdoor_arn).norm) ↔
      backdoor_arn ∈ (StrOrList.list [backdoor_arn]).norm) ∧
    (patchStmt backdoor_arn
        ⟨some "Allow", none, some (.str backdoor_arn), []⟩).2 =
      (patchStmt backdoor_arn
        ⟨some "Allow", none, some (.list [backdoor_arn]), []⟩).2 :=
  C7_normalization secretsmanagerMatch "secretsmanager:GetSecretValue"
    (some "Allow") none none [] backdoor_arn backdoor_arn

/-- C8: when the `Statement` key is present and no statement passes the
DynamoDB match test, `update-short-urls-policy.py` appends exactly its
fallback statement at the end of the statement sequence, returns
`changed = true`, and the statement count grows by exactly one. -/
theorem C8_fallback_append (d : PolicyDocument) (l : List Statement)
    (hd : d.statement = some l)
    (h : ∀ t ∈ l, dynamodbMatch t.normAction = false) :
    update_short_urls_policy d =
      .ok ({ d with statement := some (l ++ [fallback_statement]) }, true) ∧
    (l ++ [fallback_statement]).length = l.length + 1 := by
  constructor
  · unfold update_short_urls_policy
    have hr : runScript dynamodbMatch short_urls_arn d = none := by
      apply (runScript_none_iff dynamodbMatch short_urls_arn d).mpr
      rw [stmts_eq_of_statement hd]
      exact h
    rw [hr, hd]
  · simp

/-- C8 witness: the fallback append on the concrete document
`noMatchDoc`. -/
theorem C8_fallback_append_witness :
    update_short_urls_policy noMatchDoc =
      .ok ({ noMatchDoc with
        statement := some ([s3Stmt] ++ [fallback_statement]) }, true) ∧
    ([s3Stmt] ++ [fallback_statement]).length = [s3Stmt].length + 1 :=
  C8_fallback_append noMatchDoc [s3Stmt] rfl (by decide)

/-- C10: when the first matching statement has no `Resource` field at all,
the missing field is read as the empty sequence and the patched statement's
`Resource` becomes the one-element list holding exactly the ensured ARN,
with `changed = true`. -/
theorem C10_missing_resource (m : List String → Bool) (arn : String)
    (d : PolicyDocument) (pre : List Statement) (s : Statement)
    (post : List Statement)
    (hd : d.statement = some (pre ++ s :: post))
    (hpre : ∀ t ∈ pre, m t.normAction = false)
    (hs : m s.normAction = true)
    (hres : s.resource = none) :
    runScript m arn d =
      some ({ d with statement := some (pre ++
        ({ s with resource := some (.list [arn]) }) :: post) }, true) := by
  have h := runScript_first m arn d pre s post hd hpre hs
  have hnorm : s.normResource = [] := by
    unfold Statement.normResource
    rw [hres]
    rfl
  have hp : patchStmt arn s =
      ({ s with resource := some (.list [arn]) }, true) := by
    unfold patchStmt
    rw [if_neg]
    · rw [hnorm, List.nil_append]
    · rw [hnorm]
      exact List.not_mem_nil arn
  rw [hp] at h
  exact h

/-- A matching statement with no `Resource` field. -/
def noResStmt : Statement :=
  ⟨some "Allow", some (.list ["secretsmanager:GetSecretValue"]), none, []⟩

/-- A document whose only statement is `noResStmt`. -/
def noResDoc : PolicyDocument :=
  { statement := some [noResStmt], other := [] }

/-- C10 witness: patching `noResDoc` writes a one-element resource list. -/
theorem C10_missing_resource_witness :
    runScript secretsmanagerMatch backdoor_arn noResDoc =
      some ({ noResDoc with statement := some ([] ++
        ({ noResStmt with resource := some (.list [backdoor_arn]) })
          :: []) }, true) :=
  C10_missing_resource secretsmanagerMatch backdoor_arn noResDoc [] noResStmt
    [] rfl (by decide) (by decide) rfl

/-- The patch step never removes pre-existing resource elements: the
normalized output resources extend the normalized input resources. -/
theorem patchStmt_normResource (arn : String) (s : Statement) :
    ∃ tail, (patchStmt arn s).1.normResource = s.normResource ++ tail := by
  unfold patchStmt
  by_cases h : arn ∈ s.normResource
  · rw [if_pos h]
    exact ⟨[], by simp⟩
  · rw [if_neg h]
    exact ⟨[arn], rfl⟩

/-- `l1` arises from `l` by at most one non-destructive edit: either nothing
changed, or exactly one statement was appended at the end, or exactly one
statement in place had its resource sequence extended — with its other
fields, and every other statement, untouched. -/
def OnlyAppended (l l1 : List Statement) : Prop :=
  (l1.length = l.length ∨ l1.length = l.length + 1) ∧
  (l1 = l ∨
   (∃ F, l1 = l ++ [F]) ∨
   ∃ pre s s1 post, l = pre ++ s :: post ∧ l1 = pre ++ s1 :: post ∧
     s1.effect = s.effect ∧ s1.action = s.action ∧ s1.other = s.other ∧
     ∃ tail, s1.normResource = s.normResource ++ tail)

/-- The unchanged case of `OnlyAppended`. -/
theorem OnlyAppended_refl (l : List Statement) : OnlyAppended l l :=
  ⟨Or.inl rfl, Or.inl rfl⟩

/-- A successful scan only appends. -/
theorem runScript_onlyAppended (m : List String → Bool) (arn : String)
    (d d1 : PolicyDocument) (c : Bool)
    (h : runScript m arn d = some (d1, c)) :
    OnlyAppended d.stmts d1.stmts := by
  obtain ⟨l1, hp, hd1⟩ := runScript_some m arn d d1 c h
  have hst : d1.stmts = l1 := stmts_eq_of_statement (by rw [hd1])
  obtain ⟨pre, s, post, hl, hpre, hs, hl1, hc⟩ :=
    patchStmts_some m arn d.stmts l1 c hp
  rw [hst, hl1, hl]
  constructor
  · left
    simp
  · right
    right
    exact ⟨pre, s, (patchStmt arn s).1, post, rfl, rfl,
      (patchStmt_frame arn s).1, (patchStmt_frame arn s).2.1,
      (patchStmt_frame arn s).2.2, patchStmt_normResource arn s⟩

/-- C5: for each of the three scripts, a successful run leaves the statement
count equal or greater by exactly one, never deletes or reorders an existing
statement, and only ever appends to a pre-existing resource sequence —
captured by the `OnlyAppended` relation between input and output statement
lists. -/
theorem C5_non_destructive (d d1 : PolicyDocument) (b : Bool) :
    (update_policy d = (d1, b) → OnlyAppended d.stmts d1.stmts) ∧
    (update_telnyx_policy d = .ok (d1, b) → OnlyAppended d.stmts d1.stmts) ∧
    (update_short_urls_policy d = .ok (d1, b) →
      OnlyAppended d.stmts d1.stmts) := by
  refine ⟨?_, ?_, ?_⟩
  · intro h
    unfold update_policy at h
    cases hr : runScript secretsmanagerMatch backdoor_arn d with
    | none =>
      rw [hr] at h
      simp only [Prod.mk.injEq] at h
      rw [← h.1]
      exact OnlyAppended_refl d.stmts
    | some r =>
      obtain ⟨d2, c⟩ := r
      rw [hr] at h
      simp only at h
      rw [h] at hr
      exact runScript_onlyAppended secretsmanagerMatch backdoor_arn d d1 b hr
  · intro h
    unfold update_telnyx_policy at h
    cases hr : runScript secretsmanagerMatch telnyx_arn d with
    | none => rw [hr] at h; exact Except.noConfusion h
    | some r =>
      obtain ⟨d2, c⟩ := r
      rw [hr] at h
      simp only [Except.ok.injEq] at h
      rw [h] at hr
      exact runScript_onlyAppended secretsmanagerMatch telnyx_arn d d1 b hr
  · intro h
    unfold update_short_urls_policy at h
    cases hr : runScript dynamodbMatch short_urls_arn d with
    | some r =>
      obtain ⟨d2, c⟩ := r
      rw [hr] at h
      simp only [Except.ok.injEq] at h
      rw [h] at hr
      exact runScript_onlyAppended dynamodbMatch short_urls_arn d d1 b hr
    | none =>
      rw [hr] at h
      cases hds : d.statement with
      | none => rw [hds] at h; exact Except.noConfusion h
      | some l =>
        rw [hds] at h
        simp only [Except.ok.injEq, Prod.mk.injEq] at h
        have hd1 : d1.stmts = l ++ [fallback_statement] :=
          stmts_eq_of_statement (by rw [← h.1])
        rw [hd1, stmts_eq_of_statement hds]
        constructor
        · right
          simp
        · right
          left
          exact ⟨fallback_statement, rfl⟩

/-- A document produced by running `update-short-urls-policy.py` on
`noMatchDoc`: the fallback statement has been appended. -/
def noMatchDoc_fb : PolicyDocument :=
  { noMatchDoc with statement := some ([s3Stmt] ++ [fallback_statement]) }

/-- C5 witness: the non-destructive shape at concrete runs of all three
scripts. -/
theorem C5_non_destructive_witness :
    OnlyAppended sampleDoc.stmts sampleDoc_bd.stmts ∧
    OnlyAppended sampleDoc.stmts sampleDoc_tx.stmts ∧
    OnlyAppended noMatchDoc.stmts noMatchDoc_fb.stmts :=
  ⟨(C5_non_destructive sampleDoc sampleDoc_bd true).1 rfl,
   (C5_non_destructive sampleDoc sampleDoc_tx true).2.1 rfl,
   (C5_non_destructive noMatchDoc noMatchDoc_fb true).2.2 rfl⟩

/-- `d1` differs from `d` at most in the `Resource` field of the first
statement matching `matchTest`: every other key of the document, every
other statement, and every other field of the patched statement are
identical. -/
def FrameRes (matchTest : List String → Bool) (d d1 : PolicyDocument) :
    Prop :=
  d1.other = d.other ∧
  (d1 = d ∨
   ∃ pre s s1 post, d.stmts = pre ++ s :: post ∧
     d1.stmts = pre ++ s1 :: post ∧
     (∀ t ∈ pre, matchTest t.normAction = false) ∧
     matchTest s.normAction = true ∧
     s1.effect = s.effect ∧ s1.action = s.action ∧ s1.other = s.other)

/-- A successful scan touches only the resource field of the first
matching statement. -/
theorem runScript_frame (m : List String → Bool) (arn : String)
    (d d1 : PolicyDocument) (c : Bool)
    (h : runScript m arn d = some (d1, c)) : FrameRes m d d1 := by
  obtain ⟨l1, hp, hd1⟩ := runScript_some m arn d d1 c h
  have hst : d1.stmts = l1 := stmts_eq_of_statement (by rw [hd1])
  obtain ⟨pre, s, post, hl, hpre, hs, hl1, hc⟩ :=
    patchStmts_some m arn d.stmts l1 c hp
  constructor
  · rw [hd1]
  · right
    exact ⟨pre, s, (patchStmt arn s).1, post, hl, by rw [hst, hl1], hpre, hs,
      (patchStmt_frame arn s).1, (patchStmt_frame arn s).2.1,
      (patchStmt_frame arn s).2.2⟩

/-- C9: the two secretsmanager scripts modify at most the `Resource` field
of the first matching statement — all other statements, the other fields of
the patched statement, and the rest of the document are returned exactly as
given. -/
theorem C9_resource_only_frame (d d1 : PolicyDocument) (b : Bool) :
    (update_policy d = (d1, b) → FrameRes secretsmanagerMatch d d1) ∧
    (update_telnyx_policy d = .ok (d1, b) →
      FrameRes secretsmanagerMatch d d1) := by
  constructor
  · intro h
    unfold update_policy at h
    cases hr : runScript secretsmanagerMatch backdoor_arn d with
    | none =>
      rw [hr] at h
      simp only [Prod.mk.injEq] at h
      rw [← h.1]
      exact ⟨rfl, Or.inl rfl⟩
    | some r =>
      obtain ⟨d2, c⟩ := r
      rw [hr] at h
      simp only at h
      rw [h] at hr
      exact runScript_frame secretsmanagerMatch backdoor_arn d d1 b hr
  · intro h
    unfold update_telnyx_policy at h
    cases hr : runScript secretsmanagerMatch telnyx_arn d with
    | none => rw [hr] at h; exact Except.noConfusion h
    | some r =>
      obtain ⟨d2, c⟩ := r
      rw [hr] at h
      simp only [Except.ok.injEq] at h
      rw [h] at hr
      exact runScript_frame secretsmanagerMatch telnyx_arn d d1 b hr

/-- C9 witness: the frame property at concrete runs of both secretsmanager
scripts. -/
theorem C9_resource_only_frame_witness :
    FrameRes secretsmanagerMatch sampleDoc sampleDoc_bd ∧
    FrameRes secretsmanagerMatch sampleDoc sampleDoc_tx :=
  ⟨(C9_resource_only_frame sampleDoc sampleDoc_bd true).1 rfl,
   (C9_resource_only_frame sampleDoc sampleDoc_tx true).2 rfl⟩
